/-
  Verification of the HDHomeRun signal-monitor server core
  (device discovery/caching subsystem, status parsing, signal
  estimation, and the monitoring session manager), shallowly
  embedded from the Node.js source.
-/
import Mathlib

namespace HDHR

/-! ## Data model -/

/-- A discovered or manually configured device, as built by the
discovery code: `{id, ip, name, online}`. -/
structure Device where
  id : String
  ip : String
  name : String
  online : Bool
deriving Repr, DecidableEq

/-- The tuner status record assembled by `getTunerStatus`.  Fields the
source only sets when the corresponding `key=value` token is present are
`Option`; `lock` is always normalized to a `Bool` by the source
(`status.lock = status.lock !== undefined`). -/
structure TunerStatus where
  channel : Option String
  lock : Bool
  ss : Option Nat
  snq : Option Nat
  seq : Option Nat
  bps : Option Nat
  pps : Option Nat
  ssDb : Option ℚ
  snrDb : Option ℚ
  debugRaw : Option String
deriving Repr, DecidableEq

/-- The terminal "tuner idle" result: `{channel:"none", lock:false}`
with no other fields. -/
def idleTunerStatus : TunerStatus :=
  { channel := some "none", lock := false, ss := none, snq := none,
    seq := none, bps := none, pps := none, ssDb := none, snrDb := none,
    debugRaw := none }

/-! ## Regex-style scanning primitives

The source extracts fields with JavaScript regexes of the single shape
`literal(C+)` (a literal key followed by a greedily captured character
class).  We embed exactly that: leftmost match, greedy capture. -/

/-- Greedy capture of `C+` for the character class `p`: succeeds only if
the first character satisfies `p`, returning the maximal run and the
remainder of the input. -/
def takeWhile1 (p : Char → Bool) : List Char → Option (List Char × List Char)
  | [] => none
  | c :: rest =>
    if p c then some ((c :: rest).takeWhile p, (c :: rest).dropWhile p)
    else none

/-- Leftmost match of the regex `key(C+)`: scan positions left to right
and at the first position where the literal `key` occurs immediately
followed by at least one character of class `p`, return the greedy
capture. -/
def findKeyCapture (key : List Char) (p : Char → Bool) : List Char → Option (List Char)
  | [] => none
  | c :: rest =>
    match (if key.isPrefixOf (c :: rest) then
             (takeWhile1 p ((c :: rest).drop key.length)).map Prod.fst
           else none) with
    | some cap => some cap
    | none => findKeyCapture key p rest

/-- JavaScript `parseInt` on a captured non-empty digit string. -/
def parseIntDigits (cs : List Char) : Nat :=
  cs.foldl (fun n c => n * 10 + (c.toNat - 48)) 0

/-- The character class `[^\s]` used by the `ch=` and `lock=` patterns. -/
def notSpace (c : Char) : Bool := !c.isWhitespace

/-- The character class `\d` used by the numeric patterns. -/
def digitClass (c : Char) : Bool := c.isDigit

/-- JavaScript `String.prototype.trim`: strip leading and trailing
whitespace. -/
def jsTrim (s : String) : String :=
  String.mk (((s.data.dropWhile Char.isWhitespace).reverse.dropWhile
    Char.isWhitespace).reverse)

/-! ## Status-line parsing (`getTunerStatus`, pattern section) -/

/-- Field extraction applied to a non-`"none"` status line: the seven
patterns `ch=([^\s]+)`, `lock=([^\s]+)`, `ss=(\d+)`, `snq=(\d+)`,
`seq=(\d+)`, `bps=(\d+)`, `pps=(\d+)`, numeric captures through
`parseInt`, and `lock` normalized to presence
(`status.lock = status.lock !== undefined`). -/
def extractStatusFields (statusLine : String) : TunerStatus :=
  let s := statusLine.data
  { channel := (findKeyCapture "ch=".data notSpace s).map (fun cs => String.mk cs)
    lock := (findKeyCapture "lock=".data notSpace s).isSome
    ss := (findKeyCapture "ss=".data digitClass s).map parseIntDigits
    snq := (findKeyCapture "snq=".data digitClass s).map parseIntDigits
    seq := (findKeyCapture "seq=".data digitClass s).map parseIntDigits
    bps := (findKeyCapture "bps=".data digitClass s).map parseIntDigits
    pps := (findKeyCapture "pps=".data digitClass s).map parseIntDigits
    ssDb := none
    snrDb := none
    debugRaw := none }

/-- The function `parseStatusLine` (the StatusParser view of the status branch of
`getTunerStatus`): trim the line, return the idle terminal status if it
is exactly `none`, otherwise extract the documented fields. -/
def parseStatusLine (text : String) : TunerStatus :=
  let statusLine := jsTrim text
  if statusLine = "none" then idleTunerStatus
  else extractStatusFields statusLine

/-! ## Debug line (`dbg=<signal>-<snr>/<third>`) and the signal estimator -/

/-- Match `\d+` with `parseInt` applied to the capture. -/
def parseDigits1 (s : List Char) : Option (Nat × List Char) :=
  (takeWhile1 Char.isDigit s).map (fun pr => (parseIntDigits pr.1, pr.2))

/-- Attempt to match `dbg=(\d+)-(\d+)\/(-?\d+)` anchored at the start of
`s`.  Returns the two `parseInt`ed captures and the raw text of the
third capture (which is how the source uses them). -/
def matchDbgHere (s : List Char) : Option (Nat × Nat × String) :=
  if "dbg=".data.isPrefixOf s then
    match parseDigits1 (s.drop 4) with
    | none => none
    | some (sig, s2) =>
      match s2 with
      | '-' :: s3 =>
        match parseDigits1 s3 with
        | none => none
        | some (snr, s4) =>
          match s4 with
          | '/' :: '-' :: s6 =>
            match takeWhile1 Char.isDigit s6 with
            | none => none
            | some (cap, _) => some (sig, snr, String.mk ('-' :: cap))
          | '/' :: s5 =>
            match takeWhile1 Char.isDigit s5 with
            | none => none
            | some (cap, _) => some (sig, snr, String.mk cap)
          | _ => none
      | _ => none
  else none

/-- Leftmost match of `dbg=(\d+)-(\d+)\/(-?\d+)` in the debug output. -/
def findDbg : List Char → Option (Nat × Nat × String)
  | [] => none
  | c :: rest =>
    match matchDbgHere (c :: rest) with
    | some r => some r
    | none => findDbg rest

/-- JavaScript `Math.round`: round half toward positive infinity. -/
def jsRound (x : ℚ) : Int := ⌊x + 1/2⌋

/-- The SignalEstimator: the 4-bucket piecewise-linear dBm estimate of
`signalRaw` and the linear `snrRaw * 0.31` dB estimate (forced to `0`
when `snrRaw` is `0`), both rounded to one decimal place, exactly as in
the debug branch of `getTunerStatus`. -/
def estimate (signalRaw snrRaw : Nat) : ℚ × ℚ :=
  let sr : ℚ := signalRaw
  let estimatedSignalDbm : ℚ :=
    if 80 ≤ signalRaw then -40 - (100 - sr) * 0.5
    else if 60 ≤ signalRaw then -50 - (80 - sr) * 0.5
    else if 20 ≤ signalRaw then -60 - (60 - sr) * 0.5
    else -80 - (20 - sr) * 0.5
  let estimatedSnrDb : ℚ := (snrRaw : ℚ) * 0.31
  ((jsRound (estimatedSignalDbm * 10) : ℚ) / 10,
   if 0 < snrRaw then (jsRound (estimatedSnrDb * 10) : ℚ) / 10 else 0)

/-! ## `getTunerStatus` -/

/-- The probe `getTunerStatus` embedded as a function of the (already trimmed)
results of its two `getStatusCommand` queries — `none` for a failed
query.  An empty string is falsy in the source (`if (!statusResult)`,
`if (debugResult)`), hence the explicit empty-string branches. -/
def getTunerStatus (statusResult debugResult : Option String) :
    Option TunerStatus :=
  match statusResult with
  | none => none
  | some sr =>
    if sr = "" then none
    else
      let statusLine := jsTrim sr
      if statusLine = "none" then some idleTunerStatus
      else
        let base := extractStatusFields statusLine
        match debugResult with
        | none => some base
        | some dr =>
          if dr = "" then some base
          else
            match findDbg dr.data with
            | none => some base
            | some (signalRaw, snrRaw, third) =>
              some { base with
                ssDb := some (estimate signalRaw snrRaw).1
                snrDb := some (estimate signalRaw snrRaw).2
                debugRaw := some (toString signalRaw ++ "-" ++
                  toString snrRaw ++ "/" ++ third) }

/-- The debug query failed, returned empty output, or its output does
not match the `dbg=` pattern. -/
def debugUnusable : Option String → Bool
  | none => true
  | some t => t = "" || (findDbg t.data).isNone

/-! ## Discovery -/

/-- Discovery: `autoDiscoverDevices(forceRefresh)` embedded as a pure function of
the results the two discovery primitives would return and of the
current `httpDiscoveryCache` field.  Returns the device list, the new
cache value, and the number of times the HTTP cloud-fallback primitive
was invoked during the call.  Mirrors the source: UDP result is
authoritative when non-empty; otherwise a non-null cache is returned
as-is unless `forceRefresh`; otherwise the HTTP result is stored into
the cache unconditionally and returned. -/
def autoDiscoverDevices (forceRefresh : Bool) (udpDevices : List Device)
    (httpDevices : List Device) (httpDiscoveryCache : Option (List Device)) :
    List Device × Option (List Device) × Nat :=
  if udpDevices.length > 0 then
    (udpDevices, httpDiscoveryCache, 0)
  else if forceRefresh = false ∧ httpDiscoveryCache ≠ none then
    (httpDiscoveryCache.getD [], httpDiscoveryCache, 0)
  else
    (httpDevices, some httpDevices, 1)

/-- JavaScript truthiness of a nullable string (`null`/`undefined` and
the empty string are falsy). -/
def jsTruthy : Option String → Bool
  | none => false
  | some s => !(s == "")

/-- One entry of the HTTP discovery API response; tuner devices carry a
`DeviceID`, storage-only devices do not. -/
structure CloudEntry where
  DeviceID : Option String
  LocalIP : String
deriving Repr, DecidableEq

/-- Cloud fallback `httpDiscoverDevices` embedded as a function of the parsed JSON
entries and of the `getDeviceModel` results (keyed by IP): keep only
entries with a truthy `DeviceID`, and build each device with both `id`
and `ip` set to the entry's `LocalIP`, the `DeviceID` appearing only in
the display name. -/
def httpDiscoverDevices (entries : List CloudEntry)
    (getModel : String → Option String) : List Device :=
  (entries.filter (fun e => jsTruthy e.DeviceID)).map (fun e =>
    { id := e.LocalIP
      ip := e.LocalIP
      name :=
        if jsTruthy (getModel e.LocalIP) then
          "HDHomeRun " ++ e.DeviceID.getD "" ++ " (" ++
            (getModel e.LocalIP).getD "" ++ ")"
        else
          "HDHomeRun " ++ e.DeviceID.getD ""
      online := true })

/-- A `deviceNameCache` entry: `{device, timestamp}`. -/
structure DeviceCacheEntry where
  device : Device
  timestamp : Nat
deriving Repr, DecidableEq

/-- The TTL `this.cacheTTL = 5 * 60 * 1000` (milliseconds). -/
def cacheTTL : Nat := 5 * 60 * 1000

/-- The cache entry for a host is absent or expired
(`!(Date.now() - cached.timestamp < this.cacheTTL)`). -/
def cacheStale (cached : Option DeviceCacheEntry) (now : Nat) : Bool :=
  match cached with
  | none => true
  | some entry => decide ((cacheTTL : Int) ≤ (now : Int) - entry.timestamp)

/-- The fresh-query path of `getDeviceByHost`: `modelResult` is the
result of the `get /sys/hwmodel` query (`none` on failure) and
`discoveredId` the vendor id recovered (or not) from the secondary
`discover <host>` query.  Returns the resolved device and the cache
entry written for the host. -/
def getDeviceByHostFresh (host : String) (now : Nat)
    (modelResult : Option String) (discoveredId : Option String) :
    Device × Option DeviceCacheEntry :=
  match modelResult with
  | none =>
    let offlineDevice : Device :=
      { id := host, ip := host, name := "HDHomeRun (" ++ host ++ ")",
        online := false }
    (offlineDevice, some ⟨offlineDevice, now⟩)
  | some out =>
    let model := if jsTrim out = "" then "Unknown" else jsTrim out
    let device : Device :=
      { id := host
        ip := host
        name :=
          match discoveredId with
          | some deviceId => "HDHomeRun " ++ deviceId ++ " (" ++ model ++ ")"
          | none => "HDHomeRun " ++ model ++ " (" ++ host ++ ")"
        online := true }
    (device, some ⟨device, now⟩)

/-- Lookup `getDeviceByHost(host)`: return the cached device while the entry is
within TTL, otherwise run the fresh-query path.  The second component is
the cache entry written (`none` when the cache was hit). -/
def getDeviceByHost (host : String) (cached : Option DeviceCacheEntry)
    (now : Nat) (modelResult : Option String) (discoveredId : Option String) :
    Device × Option DeviceCacheEntry :=
  match cached with
  | some entry =>
    if (now : Int) - entry.timestamp < (cacheTTL : Int) then
      (entry.device, none)
    else
      getDeviceByHostFresh host now modelResult discoveredId
  | none => getDeviceByHostFresh host now modelResult discoveredId

/-- One step of the discovery merge: the source keeps a `deviceSet` of
seen ids next to the result array, and pushes a device only when its id
has not been seen. -/
def addDevice (st : List String × List Device) (d : Device) :
    List String × List Device :=
  if st.1.contains d.id then st else (st.1 ++ [d.id], st.2 ++ [d])

/-- Merge `discoverDevices`: merge the auto-discovered devices (unless
discovery is disabled) and then the manually resolved ones into one
id-de-duplicated list, auto-discovered first. -/
def discoverDevices (disableDiscovery : Bool) (autoDiscovered : List Device)
    (manualResults : List Device) : List Device :=
  let st0 : List String × List Device := ([], [])
  let st1 := if disableDiscovery then st0 else autoDiscovered.foldl addDevice st0
  (manualResults.foldl addDevice st1).2

/-! ## Programs with retry -/

/-- A parsed program-list entry (`parsePrograms` output element). -/
structure ProgramEntry where
  programNum : String
  virtualChannel : String
  name : String
  callsign : String
  status : String
  encrypted : Bool
  atsc3 : Bool
deriving Repr, DecidableEq

/-- The retry loop of `getCurrentChannelPrograms`: `queries` holds, per
attempt, the outcome of the `streaminfo` query (`none` = command error,
`some ps` = success with parsed program list `ps`).  A failed or empty
attempt is retried while `attempt < maxRetries`; exhaustion resolves the
empty list.  Returns the resolved list and the number of `streaminfo`
queries issued. -/
def tryGetPrograms (maxRetries : Nat) :
    Nat → List (Option (List ProgramEntry)) → List ProgramEntry × Nat
  | _, [] => ([], 0)
  | attempt, q :: rest =>
    match q with
    | none =>
      if attempt < maxRetries then
        let r := tryGetPrograms maxRetries (attempt + 1) rest
        (r.1, r.2 + 1)
      else ([], 1)
    | some programs =>
      if programs.length = 0 ∧ attempt < maxRetries then
        let r := tryGetPrograms maxRetries (attempt + 1) rest
        (r.1, r.2 + 1)
      else (programs, 1)

/-- The operation `getCurrentChannelPrograms` (a.k.a. `getProgramsWithRetry`): if the
preliminary tuner-status check reports `null`, `lock` false or channel
`"none"`, resolve the empty list without issuing any `streaminfo`
query; otherwise run the retry loop. -/
def getCurrentChannelPrograms (status : Option TunerStatus)
    (queries : List (Option (List ProgramEntry))) (maxRetries : Nat) :
    List ProgramEntry × Nat :=
  match status with
  | none => ([], 0)
  | some st =>
    if st.lock = false ∨ st.channel = some "none" then ([], 0)
    else tryGetPrograms maxRetries 0 queries

/-! ## Monitoring session manager -/

/-- Whether the interval map holds a session for the socket id. -/
def hasSession (m : List (String × Nat)) (sid : String) : Bool :=
  m.any (fun p => p.1 == sid)

/-- Teardown `stopMonitoring(socket)`: when a session exists for `socket?.id`,
clear its interval and remove the record; otherwise do nothing. -/
def stopMonitoring (socketId : Option String) (m : List (String × Nat)) :
    List (String × Nat) :=
  match socketId with
  | none => m
  | some sid =>
    if hasSession m sid then m.filter (fun p => !(p.1 == sid))
    else m

/-- One antenna-mode tick: fetch the status of every tuner index
`0..tunerCount-1`; a per-tuner fetch that rejects is caught and mapped
to `{tuner: i, status: null}` for that entry only. -/
def antennaTick (fetch : Nat → Except Unit (Option TunerStatus))
    (tunerCount : Nat) : List (Nat × Option TunerStatus) :=
  (List.range tunerCount).map (fun i =>
    match fetch i with
    | Except.ok s => (i, s)
    | Except.error _ => (i, none))

end HDHR

namespace HDHR

/-! ## Spec-level predicates -/

/-- Spec-level notion of a `key(C+)` token being present in a line: the
literal `key` occurs somewhere, immediately followed by a character of
class `p`. -/
def keyPresent (key : List Char) (p : Char → Bool) (s : List Char) : Prop :=
  ∃ pre c rest, s = pre ++ key ++ c :: rest ∧ p c = true

/-! ## Theorems -/

theorem takeWhile1_isSome (p : Char → Bool) (s : List Char) :
    (takeWhile1 p s).isSome = true ↔ ∃ c rest, s = c :: rest ∧ p c = true := by
  cases s with
  | nil => simp [takeWhile1]
  | cons c rest =>
    simp only [takeWhile1]
    by_cases hp : p c
    · simp [hp]
    · simp only [hp, if_false]
      constructor
      · intro h
        simp at h
      · rintro ⟨c', rest', heq, hpc⟩
        cases heq
        exact absurd hpc (by simpa using hp)

theorem findKeyCapture_isSome (key : List Char) (p : Char → Bool) (s : List Char) :
    (findKeyCapture key p s).isSome = true ↔ keyPresent key p s := by
  induction s with
  | nil =>
    simp only [findKeyCapture, keyPresent]
    constructor
    · intro h
      simp at h
    · rintro ⟨pre, c, rest, heq, -⟩
      exact absurd heq (by simp)
  | cons c0 s' ih =>
    simp only [findKeyCapture]
    constructor
    · intro h
      rcases hm : (if key.isPrefixOf (c0 :: s') then
          (takeWhile1 p ((c0 :: s').drop key.length)).map Prod.fst else none) with _ | cap
      · rw [hm] at h
        rcases (ih.mp h) with ⟨pre, c, rest, heq, hpc⟩
        exact ⟨c0 :: pre, c, rest, by simp [heq], hpc⟩
      · by_cases hpre : key.isPrefixOf (c0 :: s')
        · rw [if_pos hpre] at hm
          have hpre' : key <+: (c0 :: s') := by
            exact List.isPrefixOf_iff_prefix.mp hpre
          rcases hpre' with ⟨t, ht⟩
          have hdrop : (c0 :: s').drop key.length = t := by
            rw [← ht]
            simp
          rw [hdrop] at hm
          have hsome : (takeWhile1 p t).isSome = true := by
            cases htw : takeWhile1 p t with
            | none => rw [htw] at hm; simp at hm
            | some v => simp
          rcases (takeWhile1_isSome p t).mp hsome with ⟨c, rest, hteq, hpc⟩
          exact ⟨[], c, rest, by simp [← ht, hteq], hpc⟩
        · rw [if_neg hpre] at hm
          simp at hm
    · rintro ⟨pre, c, rest, heq, hpc⟩
      cases pre with
      | nil =>
        simp only [List.nil_append] at heq
        have hpre : key.isPrefixOf (c0 :: s') = true := by
          rw [List.isPrefixOf_iff_prefix, heq]
          exact ⟨c :: rest, rfl⟩
        have hdrop : (c0 :: s').drop key.length = c :: rest := by
          rw [heq]
          simp
        rw [if_pos hpre, hdrop]
        have : (takeWhile1 p (c :: rest)).isSome = true :=
          (takeWhile1_isSome p (c :: rest)).mpr ⟨c, rest, rfl, hpc⟩
        cases htw : takeWhile1 p (c :: rest) with
        | none => rw [htw] at this; simp at this
        | some v => simp
      | cons d pre' =>
        have hc0 : c0 = d ∧ s' = pre' ++ key ++ c :: rest := by
          constructor
          · exact (List.cons.injEq _ _ _ _ ▸ heq).1
          · exact (List.cons.injEq _ _ _ _ ▸ heq).2
        have htail : (findKeyCapture key p s').isSome = true :=
          ih.mpr ⟨pre', c, rest, hc0.2, hpc⟩
        cases hm : (if key.isPrefixOf (c0 :: s') then
            (takeWhile1 p ((c0 :: s').drop key.length)).map Prod.fst else none) with
        | none => exact htail
        | some v => simp

/-- C2 -- the parser `parseStatusLine`: a line whose trim is exactly `none` parses to
exactly `{channel:"none", lock:false}` with every other field absent;
otherwise each documented key is extracted exactly when its token is
present in the line (absent keys are omitted, not zero-defaulted), `lock`
is `true` iff a `lock=` token is present, and the dB/debug fields are
never set by status-line parsing; concretely,
`"ch=8 lock=atsc8 ss=71"` yields `{channel:"8", lock:true, ss:71}` with
no `snq`/`seq`/`bps`/`pps`. -/
theorem parseStatusLine_spec :
    (∀ text : String, jsTrim text = "none" →
      parseStatusLine text = idleTunerStatus) ∧
    idleTunerStatus = { channel := some "none"
                        lock := false
                        ss := none
                        snq := none
                        seq := none
                        bps := none
                        pps := none
                        ssDb := none
                        snrDb := none
                        debugRaw := none } ∧
    (∀ text : String, jsTrim text ≠ "none" →
      ((parseStatusLine text).lock = true ↔
        keyPresent "lock=".data notSpace (jsTrim text).data) ∧
      ((parseStatusLine text).channel.isSome = true ↔
        keyPresent "ch=".data notSpace (jsTrim text).data) ∧
      ((parseStatusLine text).ss.isSome = true ↔
        keyPresent "ss=".data digitClass (jsTrim text).data) ∧
      ((parseStatusLine text).snq.isSome = true ↔
        keyPresent "snq=".data digitClass (jsTrim text).data) ∧
      ((parseStatusLine text).seq.isSome = true ↔
        keyPresent "seq=".data digitClass (jsTrim text).data) ∧
      ((parseStatusLine text).bps.isSome = true ↔
        keyPresent "bps=".data digitClass (jsTrim text).data) ∧
      ((parseStatusLine text).pps.isSome = true ↔
        keyPresent "pps=".data digitClass (jsTrim text).data) ∧
      (parseStatusLine text).ssDb = none ∧
      (parseStatusLine text).snrDb = none ∧
      (parseStatusLine text).debugRaw = none) ∧
    parseStatusLine "ch=8 lock=atsc8 ss=71"
      = { channel := some "8"
          lock := true
          ss := some 71
          snq := none
          seq := none
          bps := none
          pps := none
          ssDb := none
          snrDb := none
          debugRaw := none } := by
  refine ⟨?_, rfl, ?_, by decide⟩
  · intro text h
    simp only [parseStatusLine, h, if_pos]
  · intro text h
    have hps : parseStatusLine text = extractStatusFields (jsTrim text) := by
      simp only [parseStatusLine, if_neg h]
    rw [hps]
    refine ⟨?_, ?_, ?_, ?_, ?_, ?_, ?_, rfl, rfl, rfl⟩
    all_goals
      simp only [extractStatusFields, Option.isSome_map']
      exact findKeyCapture_isSome _ _ _

/-- Witness for C2: the idle line parses to the idle status, and on the
concrete line `"ch=8 lock=atsc8 ss=71"` the `lock=` token presence is
recovered from the parsed `lock` bit. -/
theorem parseStatusLine_spec_witness :
    parseStatusLine "none" = idleTunerStatus ∧
    keyPresent "lock=".data notSpace (jsTrim "ch=8 lock=atsc8 ss=71").data := by
  constructor
  · exact parseStatusLine_spec.1 "none" (by decide)
  · exact ((parseStatusLine_spec.2.2.1 "ch=8 lock=atsc8 ss=71"
      (by decide)).1).mp (by decide)

/-- C3 -- the probe `getTunerStatus` treats its two queries independently: a failed
status query yields `null`; a successful status query whose companion
debug query failed, was empty, or did not match the
`dbg=<signal>-<snr>/<third>` pattern yields exactly the status-line
parse, with `ssDb`, `snrDb` and `debugRaw` omitted and all remaining
fields unaffected. -/
theorem getTunerStatus_error_handling :
    (∀ d, getTunerStatus none d = none) ∧
    (∀ s d, s ≠ "" → jsTrim s ≠ "none" → debugUnusable d = true →
      getTunerStatus (some s) d = some (parseStatusLine s) ∧
      (parseStatusLine s).ssDb = none ∧
      (parseStatusLine s).snrDb = none ∧
      (parseStatusLine s).debugRaw = none) := by
  constructor
  · intro d
    rfl
  · intro s d hs hnone hdbg
    have hparse : parseStatusLine s = extractStatusFields (jsTrim s) := by
      simp only [parseStatusLine, if_neg hnone]
    refine ⟨?_, ?_, ?_, ?_⟩
    · simp only [getTunerStatus, if_neg hs, if_neg hnone, hparse]
      match d with
      | none => rfl
      | some t =>
        simp only [debugUnusable, Bool.or_eq_true, decide_eq_true_eq,
          Option.isNone_iff_eq_none] at hdbg
        rcases hdbg with ht | ht
        · simp [ht]
        · by_cases hte : t = ""
          · simp [hte]
          · simp [if_neg hte, ht]
    · rw [hparse]; rfl
    · rw [hparse]; rfl
    · rw [hparse]; rfl

/-- Witness for C3: a failed status query gives `null`, and a concrete
good status line with a non-matching debug line gives the plain parse
with the dB fields omitted. -/
theorem getTunerStatus_error_handling_witness :
    getTunerStatus none (some "dbg=65-19/-1817") = none ∧
    (getTunerStatus (some "ch=8 lock=atsc8 ss=71") (some "garbage")
        = some (parseStatusLine "ch=8 lock=atsc8 ss=71") ∧
      (parseStatusLine "ch=8 lock=atsc8 ss=71").ssDb = none ∧
      (parseStatusLine "ch=8 lock=atsc8 ss=71").snrDb = none ∧
      (parseStatusLine "ch=8 lock=atsc8 ss=71").debugRaw = none) := by
  constructor
  · exact getTunerStatus_error_handling.1 (some "dbg=65-19/-1817")
  · exact getTunerStatus_error_handling.2 "ch=8 lock=atsc8 ss=71"
      (some "garbage") (by decide) (by decide) (by decide)

/-- C7 -- The signal estimate is the 4-bucket piecewise-linear function of
`signalRaw` with boundaries at `raw ≥ 80`, `≥ 60`, `≥ 20` and else, the
SNR estimate is `snrRaw * 0.31` forced to `0` when `snrRaw = 0`, both
rounded to one decimal place; concretely `estimate 86 19` lands in the
strong bucket with `ssDb = -47 ∈ [-50, -40]`, and `estimate 0 0` returns
`snrDb = 0` exactly. -/
theorem estimate_buckets :
    (∀ s n, 80 ≤ s →
      (estimate s n).1 = (jsRound ((-40 - (100 - (s : ℚ)) * 0.5) * 10) : ℚ) / 10) ∧
    (∀ s n, 60 ≤ s → s < 80 →
      (estimate s n).1 = (jsRound ((-50 - (80 - (s : ℚ)) * 0.5) * 10) : ℚ) / 10) ∧
    (∀ s n, 20 ≤ s → s < 60 →
      (estimate s n).1 = (jsRound ((-60 - (60 - (s : ℚ)) * 0.5) * 10) : ℚ) / 10) ∧
    (∀ s n, s < 20 →
      (estimate s n).1 = (jsRound ((-80 - (20 - (s : ℚ)) * 0.5) * 10) : ℚ) / 10) ∧
    (∀ s n, 0 < n →
      (estimate s n).2 = (jsRound ((n : ℚ) * 0.31 * 10) : ℚ) / 10) ∧
    (∀ s, (estimate s 0).2 = 0) ∧
    (estimate 86 19).1 = -47 ∧ (-50 : ℚ) ≤ -47 ∧ (-47 : ℚ) ≤ -40 ∧
    (estimate 0 0).2 = 0 := by
  refine ⟨?_, ?_, ?_, ?_, ?_, ?_, by norm_num [estimate, jsRound], by norm_num,
    by norm_num, by norm_num [estimate]⟩
  · intro s n hs
    simp [estimate, if_pos hs]
  · intro s n h1 h2
    have : ¬ 80 ≤ s := by omega
    simp [estimate, if_neg this, if_pos h1]
  · intro s n h1 h2
    have h3 : ¬ 80 ≤ s := by omega
    have h4 : ¬ 60 ≤ s := by omega
    simp [estimate, if_neg h3, if_neg h4, if_pos h1]
  · intro s n h1
    have h3 : ¬ 80 ≤ s := by omega
    have h4 : ¬ 60 ≤ s := by omega
    have h5 : ¬ 20 ≤ s := by omega
    simp [estimate, if_neg h3, if_neg h4, if_neg h5]
  · intro s n hn
    simp [estimate, if_pos hn]
  · intro s
    simp [estimate]

/-- Witness for C7: the strong bucket at `signalRaw = 86` and the zero
SNR case evaluate as the theorem states. -/
theorem estimate_buckets_witness :
    (estimate 86 19).1 = (jsRound ((-40 - (100 - (86 : ℚ)) * 0.5) * 10) : ℚ) / 10 ∧
    (estimate 86 19).2 = (jsRound ((19 : ℚ) * 0.31 * 10) : ℚ) / 10 ∧
    (estimate 17 0).2 = 0 := by
  refine ⟨?_, ?_, ?_⟩
  · exact estimate_buckets.1 86 19 (by decide)
  · exact estimate_buckets.2.2.2.2.1 86 19 (by decide)
  · exact estimate_buckets.2.2.2.2.2.1 17

theorem contains_mem_iff {l : List String} {a : String} :
    l.contains a = true ↔ a ∈ l := by
  simp [List.contains_iff_exists_mem_beq]

theorem foldl_addDevice_inv (l : List Device) (st : List String × List Device)
    (hinv : st.1 = st.2.map Device.id) :
    (l.foldl addDevice st).1 = (l.foldl addDevice st).2.map Device.id := by
  induction l generalizing st with
  | nil => exact hinv
  | cons c rest ih =>
    simp only [List.foldl_cons]
    apply ih
    unfold addDevice
    split
    · exact hinv
    · simp [hinv]

theorem foldl_addDevice_nodup (l : List Device) (st : List String × List Device)
    (hnd : st.1.Nodup) : (l.foldl addDevice st).1.Nodup := by
  induction l generalizing st with
  | nil => exact hnd
  | cons c rest ih =>
    simp only [List.foldl_cons]
    apply ih
    unfold addDevice
    split
    · exact hnd
    · next h =>
      have hne : c.id ∉ st.1 := fun hmem => h (contains_mem_iff.mpr hmem)
      simp [List.nodup_append, hnd, hne]

theorem foldl_addDevice_subset_ids (l : List Device)
    (st : List String × List Device) (i : String) (h : i ∈ st.1) :
    i ∈ (l.foldl addDevice st).1 := by
  induction l generalizing st with
  | nil => exact h
  | cons c rest ih =>
    simp only [List.foldl_cons]
    apply ih
    unfold addDevice
    split
    · exact h
    · simp [h]

theorem foldl_addDevice_mem (l : List Device) (st : List String × List Device) :
    ∀ d ∈ (l.foldl addDevice st).2, d ∈ st.2 ∨ (d ∈ l ∧ d.id ∉ st.1) := by
  induction l generalizing st with
  | nil => exact fun d h => Or.inl h
  | cons c rest ih =>
    intro d h
    simp only [List.foldl_cons] at h
    rcases ih (addDevice st c) d h with hmem | ⟨hdl, hnid⟩
    · unfold addDevice at hmem
      by_cases hc : st.1.contains c.id = true
      · rw [if_pos hc] at hmem
        exact Or.inl hmem
      · rw [if_neg hc] at hmem
        rcases List.mem_append.mp hmem with h1 | h2
        · exact Or.inl h1
        · have hdc : d = c := by simpa using h2
          subst hdc
          refine Or.inr ⟨List.mem_cons_self _ _, ?_⟩
          exact fun hmem' => hc (contains_mem_iff.mpr hmem')
    · refine Or.inr ⟨List.mem_cons_of_mem _ hdl, ?_⟩
      intro hmem'
      apply hnid
      unfold addDevice
      split
      · exact hmem'
      · simp [hmem']

theorem foldl_addDevice_ids (l : List Device) (st : List String × List Device)
    (i : String) :
    i ∈ (l.foldl addDevice st).1 ↔ i ∈ st.1 ∨ ∃ d, d ∈ l ∧ d.id = i := by
  induction l generalizing st with
  | nil => simp
  | cons c rest ih =>
    simp only [List.foldl_cons]
    rw [ih]
    unfold addDevice
    by_cases hc : st.1.contains c.id = true
    · rw [if_pos hc]
      constructor
      · rintro (h | ⟨d, hd, hdi⟩)
        · exact Or.inl h
        · exact Or.inr ⟨d, List.mem_cons_of_mem _ hd, hdi⟩
      · rintro (h | ⟨d, hd, hdi⟩)
        · exact Or.inl h
        · rcases List.mem_cons.mp hd with rfl | hd'
          · subst hdi; exact Or.inl (contains_mem_iff.mp hc)
          · exact Or.inr ⟨d, hd', hdi⟩
    · rw [if_neg hc]
      simp only [List.mem_append, List.mem_singleton]
      constructor
      · rintro ((h | h) | ⟨d, hd, hdi⟩)
        · exact Or.inl h
        · exact Or.inr ⟨c, List.mem_cons_self _ _, h.symm⟩
        · exact Or.inr ⟨d, List.mem_cons_of_mem _ hd, hdi⟩
      · rintro (h | ⟨d, hd, hdi⟩)
        · exact Or.inl (Or.inl h)
        · rcases List.mem_cons.mp hd with rfl | hd'
          · exact Or.inl (Or.inr hdi.symm)
          · exact Or.inr ⟨d, hd', hdi⟩

theorem filter_length_one_of_nodup (l : List Device) (i : String)
    (hnd : (l.map Device.id).Nodup) (hex : ∃ d, d ∈ l ∧ d.id = i) :
    (l.filter (fun d => d.id == i)).length = 1 := by
  induction l with
  | nil => rcases hex with ⟨d, hd, _⟩; cases hd
  | cons c t ih =>
    simp only [List.map_cons, List.nodup_cons] at hnd
    by_cases hci : c.id = i
    · have ht : t.filter (fun d => d.id == i) = [] := by
        rw [List.filter_eq_nil_iff]
        intro x hx hbeq
        have hxi : x.id = i := by simpa using hbeq
        exact hnd.1 (by rw [hci, ← hxi]; exact List.mem_map_of_mem Device.id hx)
      simp [List.filter_cons, hci, ht]
    · rcases hex with ⟨d, hd, hdi⟩
      rcases List.mem_cons.mp hd with rfl | hd'
      · exact absurd hdi hci
      · have hb : (c.id == i) = false := by simpa using hci
        simp only [List.filter_cons, hb, Bool.false_eq_true, if_false]
        exact ih hnd.2 ⟨d, hd', hdi⟩

/-- C5 -- the merge `discoverDevices` returns a list with pairwise-distinct device
ids; every returned device comes from the auto-discovered or the manual
list; and when a manual host's id collides with an auto-discovered id,
the final list contains exactly one entry for that id — the
auto-discovered one (auto-discovery is merged first, first-seen wins). -/
theorem discoverDevices_dedup (autoDiscovered manualResults : List Device) :
    ((discoverDevices false autoDiscovered manualResults).map Device.id).Nodup ∧
    (∀ d, d ∈ discoverDevices false autoDiscovered manualResults →
      d ∈ autoDiscovered ∨ d ∈ manualResults) ∧
    (∀ i, (∃ a, a ∈ autoDiscovered ∧ a.id = i) →
      ((discoverDevices false autoDiscovered manualResults).filter
          (fun d => d.id == i)).length = 1 ∧
      (∀ d, d ∈ discoverDevices false autoDiscovered manualResults →
        d.id = i → d ∈ autoDiscovered)) := by
  have hd_eq : discoverDevices false autoDiscovered manualResults
      = (manualResults.foldl addDevice
          (autoDiscovered.foldl addDevice ([], []))).2 := rfl
  have hinv1 := foldl_addDevice_inv autoDiscovered ([], []) rfl
  have hnd1 := foldl_addDevice_nodup autoDiscovered ([], []) List.nodup_nil
  have hinv2 := foldl_addDevice_inv manualResults
    (autoDiscovered.foldl addDevice ([], [])) hinv1
  have hnd2 := foldl_addDevice_nodup manualResults
    (autoDiscovered.foldl addDevice ([], [])) hnd1
  refine ⟨?_, ?_, ?_⟩
  · rw [hd_eq, ← hinv2]
    exact hnd2
  · intro d hd
    rw [hd_eq] at hd
    rcases foldl_addDevice_mem _ _ d hd with h1 | ⟨h2, _⟩
    · rcases foldl_addDevice_mem _ _ d h1 with h3 | ⟨h4, _⟩
      · cases h3
      · exact Or.inl h4
    · exact Or.inr h2
  · rintro i ⟨a, ha, hai⟩
    have hi1 : i ∈ (autoDiscovered.foldl addDevice ([], [])).1 :=
      (foldl_addDevice_ids _ _ i).mpr (Or.inr ⟨a, ha, hai⟩)
    have hauto : ∀ d, d ∈ discoverDevices false autoDiscovered manualResults →
        d.id = i → d ∈ autoDiscovered := by
      intro d hd hdi
      rw [hd_eq] at hd
      rcases foldl_addDevice_mem _ _ d hd with h1 | ⟨_, hnid⟩
      · rcases foldl_addDevice_mem _ _ d h1 with h3 | ⟨h4, _⟩
        · cases h3
        · exact h4
      · exact absurd (show d.id ∈ _ by rw [hdi]; exact hi1) hnid
    refine ⟨?_, hauto⟩
    have hi2 : i ∈ (manualResults.foldl addDevice
        (autoDiscovered.foldl addDevice ([], []))).1 :=
      foldl_addDevice_subset_ids _ _ i hi1
    rw [hinv2] at hi2
    rcases List.mem_map.mp hi2 with ⟨d, hd, hdi⟩
    apply filter_length_one_of_nodup
    · rw [hd_eq, ← hinv2]
      exact hnd2
    · exact ⟨d, by rw [hd_eq]; exact hd, hdi⟩

/-- Witness for C5: a concrete manual host colliding with an
auto-discovered id leaves exactly one entry for that id. -/
theorem discoverDevices_dedup_witness :
    ((discoverDevices false [⟨"A", "1.1.1.1", "auto", true⟩]
        [⟨"A", "hostA", "manual", false⟩, ⟨"B", "hostB", "m2", true⟩]).filter
      (fun d => d.id == "A")).length = 1 :=
  ((discoverDevices_dedup [⟨"A", "1.1.1.1", "auto", true⟩]
    [⟨"A", "hostA", "manual", false⟩, ⟨"B", "hostB", "m2", true⟩]).2.2 "A"
    ⟨⟨"A", "1.1.1.1", "auto", true⟩, by simp, rfl⟩).1

/-- C4 -- the lookup `getDeviceByHost` always sets the device's `id` (and `ip`) field
to the literal configured host, in the reachable and unreachable cases
alike, whatever vendor id the secondary discovery query recovers; on a
model-query failure it resolves to — and caches — the offline
placeholder `{id: host, ip: host, online: false}`; every cache entry it
writes records the host as the id, so the cache-hit path preserves the
property; and a fresh cache entry is returned unchanged without any
query. -/
theorem getDeviceByHost_id_is_host :
    (∀ host cached now modelResult discoveredId,
      cacheStale cached now = true →
      (getDeviceByHost host cached now modelResult discoveredId).1.id = host ∧
      (getDeviceByHost host cached now modelResult discoveredId).1.ip = host) ∧
    (∀ host cached now discoveredId,
      cacheStale cached now = true →
      getDeviceByHost host cached now none discoveredId
        = (⟨host, host, "HDHomeRun (" ++ host ++ ")", false⟩,
           some ⟨⟨host, host, "HDHomeRun (" ++ host ++ ")", false⟩, now⟩)) ∧
    (∀ host cached now modelResult discoveredId e,
      (getDeviceByHost host cached now modelResult discoveredId).2 = some e →
      e.device.id = host ∧ e.device.ip = host) ∧
    (∀ (host : String) (entry : DeviceCacheEntry) (now : Nat)
        (modelResult discoveredId : Option String),
      (now : Int) - entry.timestamp < (cacheTTL : Int) →
      getDeviceByHost host (some entry) now modelResult discoveredId
        = (entry.device, none)) := by
  have hfresh : ∀ host now mr did, ∃ d,
      getDeviceByHostFresh host now mr did = (d, some ⟨d, now⟩) ∧
      d.id = host ∧ d.ip = host := by
    intro host now mr did
    cases mr with
    | none => exact ⟨_, rfl, rfl, rfl⟩
    | some out => exact ⟨_, rfl, rfl, rfl⟩
  have hstale : ∀ host cached now mr did, cacheStale cached now = true →
      getDeviceByHost host cached now mr did
        = getDeviceByHostFresh host now mr did := by
    intro host cached now mr did h
    cases cached with
    | none => rfl
    | some entry =>
      simp only [cacheStale, decide_eq_true_eq] at h
      simp only [getDeviceByHost, if_neg (by omega :
        ¬ ((now : Int) - entry.timestamp < (cacheTTL : Int)))]
  refine ⟨?_, ?_, ?_, ?_⟩
  · intro host cached now mr did h
    rw [hstale host cached now mr did h]
    rcases hfresh host now mr did with ⟨d, hd, hid, hip⟩
    rw [hd]
    exact ⟨hid, hip⟩
  · intro host cached now did h
    rw [hstale host cached now none did h]
    rfl
  · intro host cached now mr did e he
    cases cached with
    | none =>
      rcases hfresh host now mr did with ⟨d, hd, hid, hip⟩
      simp only [getDeviceByHost, hd] at he
      cases he
      exact ⟨hid, hip⟩
    | some entry =>
      by_cases hc : (now : Int) - entry.timestamp < (cacheTTL : Int)
      · simp only [getDeviceByHost, if_pos hc] at he
        cases he
      · simp only [getDeviceByHost, if_neg hc] at he
        rcases hfresh host now mr did with ⟨d, hd, hid, hip⟩
        rw [hd] at he
        cases he
        exact ⟨hid, hip⟩
  · intro host entry now mr did h
    simp only [getDeviceByHost, if_pos h]

/-- Witness for C4: for a concrete unreachable host the offline
placeholder (keyed and identified by the host) is returned and cached,
and for a concrete reachable host with a recovered vendor id the id
field is still the host. -/
theorem getDeviceByHost_id_is_host_witness :
    getDeviceByHost "192.168.1.50" none 0 none (some "10ABCDEF")
      = (⟨"192.168.1.50", "192.168.1.50", "HDHomeRun (192.168.1.50)", false⟩,
         some ⟨⟨"192.168.1.50", "192.168.1.50", "HDHomeRun (192.168.1.50)",
           false⟩, 0⟩) ∧
    (getDeviceByHost "192.168.1.50" none 0 (some "HDHR5-4K")
      (some "10ABCDEF")).1.id = "192.168.1.50" := by
  constructor
  · exact getDeviceByHost_id_is_host.2.1 "192.168.1.50" none 0
      (some "10ABCDEF") (by decide)
  · exact (getDeviceByHost_id_is_host.1 "192.168.1.50" none 0
      (some "HDHR5-4K") (some "10ABCDEF") (by decide)).1

/-- C6 -- the retrying `getCurrentChannelPrograms`: a preliminary status of `null`,
`lock=false` or channel `"none"` yields the empty list immediately with
zero `streaminfo` queries issued; and when every available attempt fails
or parses to an empty list, the retry loop (and hence the whole call)
resolves the empty list rather than an error. -/
theorem getProgramsWithRetry_spec :
    (∀ queries maxRetries,
      getCurrentChannelPrograms none queries maxRetries = ([], 0)) ∧
    (∀ st queries maxRetries, st.lock = false ∨ st.channel = some "none" →
      getCurrentChannelPrograms (some st) queries maxRetries = ([], 0)) ∧
    (∀ maxRetries attempt queries, (∀ q ∈ queries, q = none ∨ q = some []) →
      (tryGetPrograms maxRetries attempt queries).1 = []) ∧
    (∀ st queries maxRetries, (∀ q ∈ queries, q = none ∨ q = some []) →
      (getCurrentChannelPrograms (some st) queries maxRetries).1 = []) := by
  have hloop : ∀ maxRetries attempt (queries : List (Option (List ProgramEntry))),
      (∀ q ∈ queries, q = none ∨ q = some []) →
      (tryGetPrograms maxRetries attempt queries).1 = [] := by
    intro maxRetries attempt queries
    induction queries generalizing attempt with
    | nil => intro _; rfl
    | cons q rest ih =>
      intro hall
      have hq := hall q (List.mem_cons_self q rest)
      have hrest : ∀ x ∈ rest, x = none ∨ x = some [] :=
        fun x hx => hall x (List.mem_cons_of_mem q hx)
      rcases hq with hq | hq <;> subst hq
      all_goals
        simp only [tryGetPrograms]
        split
        · exact ih (attempt + 1) hrest
        · rfl
  refine ⟨fun _ _ => rfl, ?_, hloop, ?_⟩
  · intro st queries maxRetries h
    simp [getCurrentChannelPrograms, h]
  · intro st queries maxRetries hall
    by_cases hcond : st.lock = false ∨ st.channel = some "none"
    · simp [getCurrentChannelPrograms, hcond]
    · simp only [getCurrentChannelPrograms, if_neg hcond]
      exact hloop maxRetries 0 queries hall

/-- Witness for C6: an idle (unlocked) tuner returns `([], 0)` even with
a non-empty program list available, and exhausting four failing/empty
attempts resolves the empty list. -/
theorem getProgramsWithRetry_spec_witness :
    getCurrentChannelPrograms (some idleTunerStatus)
      [some [⟨"1", "12.1", "WHYY", "WHYY", "", false, false⟩]] 3 = ([], 0) ∧
    (tryGetPrograms 3 0 [none, some [], none, none]).1 = [] := by
  constructor
  · exact getProgramsWithRetry_spec.2.1 idleTunerStatus
      [some [⟨"1", "12.1", "WHYY", "WHYY", "", false, false⟩]] 3 (Or.inl rfl)
  · exact getProgramsWithRetry_spec.2.2.1 3 0 [none, some [], none, none]
      (by decide)

/-- C8 -- the teardown `stopMonitoring` is idempotent: a null socket or a client with
no session leaves the interval map unchanged (a no-op, not a failure),
stopping twice equals stopping once, and after a stop no entry for that
client remains. -/
theorem stopMonitoring_idempotent :
    (∀ m, stopMonitoring none m = m) ∧
    (∀ sid m, hasSession m sid = false → stopMonitoring (some sid) m = m) ∧
    (∀ sid m, stopMonitoring (some sid) (stopMonitoring (some sid) m)
        = stopMonitoring (some sid) m) ∧
    (∀ sid m p, p ∈ stopMonitoring (some sid) m → p.1 ≠ sid) := by
  have hmem : ∀ sid m p, p ∈ stopMonitoring (some sid) m → p.1 ≠ sid := by
    intro sid m p hp
    by_cases h : hasSession m sid
    · simp only [stopMonitoring, if_pos h, List.mem_filter,
        Bool.not_eq_true', beq_eq_false_iff_ne, ne_eq] at hp
      exact hp.2
    · simp only [stopMonitoring, if_neg h] at hp
      have h' := (Bool.not_eq_true _).mp h
      simp only [hasSession, List.any_eq_false] at h'
      simpa using h' p hp
  have hnoop : ∀ sid m, hasSession m sid = false →
      stopMonitoring (some sid) m = m := by
    intro sid m h
    simp [stopMonitoring, h]
  refine ⟨fun m => rfl, hnoop, ?_, hmem⟩
  intro sid m
  have hno : hasSession (stopMonitoring (some sid) m) sid = false := by
    rw [Bool.eq_false_iff]
    intro hcontra
    simp only [hasSession, List.any_eq_true] at hcontra
    rcases hcontra with ⟨p, hp, hbeq⟩
    exact hmem sid m p hp (by simpa using hbeq)
  exact hnoop sid _ hno

/-- Witness for C8: stopping a session-less client concretely leaves a
concrete map unchanged, and no entry for a stopped client survives. -/
theorem stopMonitoring_idempotent_witness :
    stopMonitoring (some "s3") [("s1", 5)] = [("s1", 5)] ∧
    ("s2", 7).1 ≠ "s1" := by
  constructor
  · exact stopMonitoring_idempotent.2.1 "s3" [("s1", 5)] (by decide)
  · exact stopMonitoring_idempotent.2.2.2 "s1" [("s1", 5), ("s2", 7)] ("s2", 7)
      (by decide)

/-- C9 -- An antenna-mode tick over `tunerCount = n` tuners emits exactly
`n` entries, one per tuner index `0..n-1` in order; a rejected per-tuner
fetch yields a `null` status for that entry only, and entries of tuners
whose fetches agree are identical — per-tuner failures never abort or
shrink the batch. -/
theorem antennaTick_per_tuner :
    (∀ fetch n, (antennaTick fetch n).length = n) ∧
    (∀ fetch n i, i < n → (antennaTick fetch n)[i]?
        = some (i, match fetch i with
                   | Except.ok s => s
                   | Except.error _ => none)) ∧
    (∀ fetch n i, i < n → fetch i = Except.error () →
      (antennaTick fetch n)[i]? = some (i, none)) ∧
    (∀ fetch fetch' n j, (∀ i, i ≠ j → fetch i = fetch' i) →
      ∀ i, i < n → i ≠ j →
        (antennaTick fetch n)[i]? = (antennaTick fetch' n)[i]?) := by
  have hget : ∀ fetch n i, i < n → (antennaTick fetch n)[i]?
      = some (i, match fetch i with
                 | Except.ok s => s
                 | Except.error _ => none) := by
    intro fetch n i h
    simp only [antennaTick, List.getElem?_map, List.getElem?_range h,
      Option.map_some']
    cases fetch i <;> rfl
  refine ⟨?_, hget, ?_, ?_⟩
  · intro fetch n
    simp [antennaTick]
  · intro fetch n i h herr
    rw [hget fetch n i h, herr]
  · intro fetch fetch' n j hagree i hi hij
    rw [hget fetch n i hi, hget fetch' n i hi, hagree i hij]

/-- Witness for C9: with three tuners of which tuner 1 rejects, the tick
emits three entries, entry 1 is `null`, and entry 2 is untouched by the
failure. -/
theorem antennaTick_per_tuner_witness :
    (antennaTick
      (fun i => if i = 1 then Except.error () else Except.ok (some idleTunerStatus))
      3).length = 3 ∧
    (antennaTick
      (fun i => if i = 1 then Except.error () else Except.ok (some idleTunerStatus))
      3)[1]? = some (1, none) ∧
    (antennaTick
      (fun i => if i = 1 then Except.error () else Except.ok (some idleTunerStatus))
      3)[2]?
      = (antennaTick (fun _ => Except.ok (some idleTunerStatus)) 3)[2]? := by
  refine ⟨?_, ?_, ?_⟩
  · exact antennaTick_per_tuner.1 _ 3
  · exact antennaTick_per_tuner.2.2.1 _ 3 1 (by decide) (by simp)
  · exact antennaTick_per_tuner.2.2.2 _ _ 3 1
      (fun i hi => by simp [if_neg hi]) 2 (by decide) (by decide)

/-- C10 -- Every device produced by the HTTP cloud-fallback path has both
`id` and `ip` equal to the reported `LocalIP` of some truthy-`DeviceID`
entry (the vendor id appears only in the name), entries without a
`DeviceID` (storage-only devices) are filtered out, and the output has
exactly one device per surviving entry. -/
theorem httpDiscover_id_is_ip :
    (∀ entries getModel d, d ∈ httpDiscoverDevices entries getModel →
      d.id = d.ip ∧ d.online = true ∧
      ∃ e, e ∈ entries ∧ jsTruthy e.DeviceID = true ∧ d.id = e.LocalIP) ∧
    (∀ entries getModel,
      (httpDiscoverDevices entries getModel).length
        = (entries.filter (fun e => jsTruthy e.DeviceID)).length) ∧
    (∀ entries getModel, (∀ e ∈ entries, jsTruthy e.DeviceID = false) →
      httpDiscoverDevices entries getModel = []) := by
  refine ⟨?_, ?_, ?_⟩
  · intro entries getModel d hd
    simp only [httpDiscoverDevices, List.mem_map, List.mem_filter] at hd
    rcases hd with ⟨e, ⟨he, htru⟩, rfl⟩
    exact ⟨rfl, rfl, e, he, htru, rfl⟩
  · intro entries getModel
    simp [httpDiscoverDevices]
  · intro entries getModel hall
    have : entries.filter (fun e => jsTruthy e.DeviceID) = [] := by
      rw [List.filter_eq_nil_iff]
      intro e he
      simp [hall e he]
    simp [httpDiscoverDevices, this]

/-- Witness for C10: on a concrete response with one tuner entry and one
storage-only entry, the single produced device is identified by its IP. -/
theorem httpDiscover_id_is_ip_witness :
    ((⟨"10.0.0.5", "10.0.0.5", "HDHomeRun ABC", true⟩ : Device).id
        = (⟨"10.0.0.5", "10.0.0.5", "HDHomeRun ABC", true⟩ : Device).ip ∧
      (⟨"10.0.0.5", "10.0.0.5", "HDHomeRun ABC", true⟩ : Device).online = true ∧
      ∃ e, e ∈ [(⟨some "ABC", "10.0.0.5"⟩ : CloudEntry), ⟨none, "10.0.0.6"⟩] ∧
        jsTruthy e.DeviceID = true ∧
        (⟨"10.0.0.5", "10.0.0.5", "HDHomeRun ABC", true⟩ : Device).id = e.LocalIP) ∧
    httpDiscoverDevices [(⟨none, "10.0.0.6"⟩ : CloudEntry)] (fun _ => none) = [] := by
  constructor
  · exact httpDiscover_id_is_ip.1
      [(⟨some "ABC", "10.0.0.5"⟩ : CloudEntry), ⟨none, "10.0.0.6"⟩]
      (fun _ => none) ⟨"10.0.0.5", "10.0.0.5", "HDHomeRun ABC", true⟩ (by decide)
  · exact httpDiscover_id_is_ip.2.2 [(⟨none, "10.0.0.6"⟩ : CloudEntry)]
      (fun _ => none) (by decide)

/-- C1 -- In `autoDiscoverDevices`, when UDP broadcast discovery returns no
devices: with `forceRefresh = false` and an existing cache (even a cached
empty list) the cached list is returned unchanged and the HTTP fallback is
not invoked; with `forceRefresh = true` or no cache yet, the HTTP fallback
is invoked exactly once and its result (even empty) is stored into the
cache unconditionally and returned. -/
theorem autoDiscover_cache_law (forceRefresh : Bool)
    (httpDevices : List Device) (cache : Option (List Device)) :
    (∀ c, cache = some c →
      autoDiscoverDevices false [] httpDevices cache = (c, some c, 0)) ∧
    (forceRefresh = true ∨ cache = none →
      autoDiscoverDevices forceRefresh [] httpDevices cache
        = (httpDevices, some httpDevices, 1)) := by
  constructor
  · intro c hc
    subst hc
    simp [autoDiscoverDevices]
  · intro h
    rcases h with h | h
    · subst h
      simp [autoDiscoverDevices]
    · subst h
      simp [autoDiscoverDevices]

/-- Witness for C1: concrete instances of both branches (a cached empty
list is returned as-is; with no cache the HTTP result, even empty, is
stored and returned). -/
theorem autoDiscover_cache_law_witness :
    autoDiscoverDevices false [] [⟨"A", "1.2.3.4", "n", true⟩] (some [])
      = ([], some [], 0) ∧
    autoDiscoverDevices true [] [] (some [])
      = ([], some [], 1) := by
  constructor
  · exact (autoDiscover_cache_law false [⟨"A", "1.2.3.4", "n", true⟩] (some [])).1 [] rfl
  · exact (autoDiscover_cache_law true [] (some [])).2 (Or.inl rfl)

end HDHR
